import Mathlib

set_option maxHeartbeats 1000000
set_option maxRecDepth 8000

/-
Verification of the SoD conflict-detection core of `src/app.py`.

The pandas data frames are embedded as lists of records of strings; a cell
that pandas would hold as NaN is modelled as `none : Option String`
(`str(nan) = "nan"` is reproduced by `strNA`).  Row order of a data frame is
the list order; `drop_duplicates` / `unique` keep the first occurrence, as
pandas does.  Python's string primitives (`strip`, `upper`, `lower`,
`split`, comparison) are re-implemented over `List Char` so that every
definition evaluates inside the kernel; identifiers in the inputs are ASCII,
so the ASCII whitespace/case tables suffice.
-/

namespace SoD

/-- Python `str(...)` applied to a possibly-NaN cell: NaN prints as "nan". -/
def strNA : Option String → String
  | none => "nan"
  | some s => s

/-- Python `", ".join(l)`. -/
def joinComma (l : List String) : String := String.intercalate ", " l

/-- The whitespace characters stripped by Python `str.strip()` (ASCII part). -/
def pySpaceChars : List Char := [' ', '\t', '\n', '\r', '\x0b', '\x0c']

/-- `str.strip()` on the character list. -/
def stripList (xs : List Char) : List Char :=
  ((xs.dropWhile (pySpaceChars.contains ·)).reverse.dropWhile (pySpaceChars.contains ·)).reverse

/-- Python `s.strip()`. -/
def pyStrip (s : String) : String := String.mk (stripList s.data)

/-- `str.upper()` on one character (ASCII). -/
def pyCharUpper (c : Char) : Char :=
  if 97 ≤ c.toNat ∧ c.toNat ≤ 122 then Char.ofNat (c.toNat - 32) else c

/-- Python `s.upper()`. -/
def pyUpper (s : String) : String := String.mk (s.data.map pyCharUpper)

/-- `str.lower()` on one character (ASCII). -/
def pyCharLower (c : Char) : Char :=
  if 65 ≤ c.toNat ∧ c.toNat ≤ 90 then Char.ofNat (c.toNat + 32) else c

/-- Python `s.lower()`. -/
def pyLower (s : String) : String := String.mk (s.data.map pyCharLower)

/-- Split a character list at every occurrence of a separator character. -/
def splitChar (sep : Char) : List Char → List (List Char)
  | [] => [[]]
  | c :: cs =>
    if c = sep then [] :: splitChar sep cs
    else
      match splitChar sep cs with
      | [] => [[c]]
      | seg :: rest => (c :: seg) :: rest

/-- Python `s.split(',')`. -/
def pySplitComma (s : String) : List String := (splitChar ',' s.data).map String.mk

/-- The prefix of `xs` before the first occurrence of `sep` (all of `xs` if absent). -/
def takeBefore (sep : List Char) : List Char → List Char
  | [] => []
  | c :: cs => if sep.isPrefixOf (c :: cs) then [] else c :: takeBefore sep cs

/-- Python `s.split(" - ")[0]` (combined with the `" - " in s` guard this is
exactly what `load_risk_data_from_upload` computes). -/
def takeBeforeDash (s : String) : String := String.mk (takeBefore [' ', '-', ' '] s.data)

/-- String order used by Python's `sorted` (lexicographic over code points),
implemented through the linear order on `List Char`. -/
def sLe (a b : String) : Prop := a.data ≤ b.data

/-- Strict version of `sLe`. -/
def sLt (a b : String) : Prop := a.data < b.data

instance : DecidableRel sLe := fun a b => inferInstanceAs (Decidable (a.data ≤ b.data))

instance : DecidableRel sLt := fun a b => inferInstanceAs (Decidable (a.data < b.data))

instance : IsTotal String sLe := ⟨fun a b => le_total a.data b.data⟩

instance : IsTrans String sLe := ⟨fun _ _ _ hab hbc => le_trans hab hbc⟩

theorem string_data_inj {a b : String} (h : a.data = b.data) : a = b := by
  cases a; cases b; exact congrArg String.mk h

theorem sLt_of_sLe_of_ne {a b : String} (h : sLe a b) (hne : a ≠ b) : sLt a b :=
  lt_of_le_of_ne h fun hd => hne (string_data_inj hd)

/-- Helper for `uniqueL`: drop elements already seen, keeping first occurrences. -/
def dedupAux [DecidableEq α] (seen : List α) : List α → List α
  | [] => []
  | a :: l => if a ∈ seen then dedupAux seen l else a :: dedupAux (a :: seen) l

/-- pandas `drop_duplicates()` / `Series.unique()`: keep the first occurrence. -/
def uniqueL [DecidableEq α] (l : List α) : List α := dedupAux [] l

/-- Python `sorted` on a list of strings. -/
def sortStr (l : List String) : List String := l.insertionSort sLe

/-- Python `tuple(sorted([a, b]))`. -/
def sortPair (a b : String) : String × String := if sLe a b then (a, b) else (b, a)

/-- The nested `for i ... for j in range(i+1, ...)` loop over a list. -/
def allPairs : List String → List (String × String)
  | [] => []
  | a :: l => (l.map fun b => (a, b)) ++ allPairs l

/-- A row of the combined role↔tcode mapping sheets (columns `role`, `tcode`)
before `dropna`/expansion; `none` is a NaN cell. -/
structure RoleMapRow where
  role : Option String
  tcode : Option String
deriving DecidableEq

/-- An edge of the expanded role→tcode mapping (output of
`load_role_tcode_mapping_from_upload`). -/
structure RTRow where
  role : String
  tcode : String
deriving DecidableEq

/-- A raw row of the user table: `user_id`, `user_name` and the values of all
columns whose normalized header contains "role", in column order. -/
structure UserRowRaw where
  user_id : Option String
  user_name : Option String
  roleCells : List (Option String)
deriving DecidableEq

/-- A user→role edge (output of `load_user_role_assignments_from_upload`). -/
structure URRow where
  user_id : String
  user_name : String
  role : String
deriving DecidableEq

/-- A row of the user→tcode index (output of `create_user_tcode_mapping`). -/
structure UTRow where
  user_id : String
  user_name : String
  role : String
  tcode : String
deriving DecidableEq

/-- A raw row of the "Function T-Code Mapping" sheet after column selection. -/
structure FuncMapRow where
  function_id : Option String
  tcode : Option String
deriving DecidableEq

/-- An edge of the expanded function→tcode mapping (`function_map_expanded`). -/
structure FMRow where
  function_id : String
  tcode : String
deriving DecidableEq

/-- A raw row of the "Risk Function Mapping" sheet: the `access_risk_id` cell
and the cells of all `conflicting_function*` columns, in column order. -/
structure RiskSheetRow where
  access_risk_id : Option String
  cells : List (Option String)
deriving DecidableEq

/-- A row of `risk_function_pairs` before the tcode annotation join. -/
structure RPRec where
  risk_id : String
  function_1 : String
  function_2 : String
deriving DecidableEq

/-- A row of the final `risk_pairs_df` catalog.  `tcode1`/`tcode2` are the
annotation columns produced by the left join against the grouped
function→tcode edges (`none` = NaN when a function has no tcodes). -/
structure RPRow where
  risk_id : String
  function_1 : String
  function_2 : String
  tcode1 : Option String
  tcode2 : Option String
deriving DecidableEq

/-- A row of the intermediate `user_functions` join in `analyze_conflicts`. -/
structure UFRow where
  user_id : String
  user_name : String
  role : String
  tcode : String
  function_id : String
deriving DecidableEq

/-- A row of the bulk conflict set (`final_conflicts` after renaming). -/
structure BulkRow where
  user_id : String
  user_name : String
  role_1 : String
  role_2 : String
  risk_id : String
  function_1 : String
  function_2 : String
  tcode1 : Option String
  tcode2 : Option String
  user_tcode_f1 : String
  user_tcode_f2 : String
deriving DecidableEq

/-- One conflict dict produced by `analyze_user_conflicts` (`type` is `ctype`
here; a Python set that the source feeds to `sorted(...)` is modelled as the
sorted deduplicated list, the set's iteration order being unobservable in all
fields the source reports after sorting). -/
structure Conflict where
  ctype : String
  function_1 : String
  function_2 : String
  description : String
  risk_id : String
  role_1 : String
  role_2 : String
  tcode_1 : String
  tcode_2 : String
deriving DecidableEq

/-- The dict returned by `analyze_user_conflicts`; `error` is `some msg` when
the returned dict has an "error" key.  A key absent from a branch's dict is
the neutral value ("" / [] / 0). -/
structure UserReport where
  user_id : String
  user_name : String
  roles : List String
  functions : List String
  tcodes : List String
  conflicts : List Conflict
  conflict_count : Nat
  error : Option String
deriving DecidableEq

/-- One row of the summary built by `create_user_summary`. -/
structure SummaryRow where
  user_id : String
  user_name : String
  roles : String
  total_roles : Nat
  total_tcodes : Nat
  conflict_count : Nat
  risk_status : String
deriving DecidableEq

/-- `load_role_tcode_mapping_from_upload` (src/app.py lines 189-200), applied
to the concatenation of the selected sheets' (role, tcode) columns:
`dropna`, then per row expand the comma-separated tcode field, and
`drop_duplicates` at the end. -/
def load_role_tcode_mapping_from_upload (rows : List RoleMapRow) : List RTRow :=
  let dropped := rows.filter fun r => r.role.isSome && r.tcode.isSome
  let expanded := dropped.flatMap fun r =>
    let role := pyUpper (pyStrip (strNA r.role))
    let tcodes := pyStrip (strNA r.tcode)
    if tcodes ≠ "" ∧ tcodes ∉ (["nan", "NaN", ""] : List String) then
      (pySplitComma tcodes).filterMap fun t =>
        let t' := pyUpper (pyStrip t)
        if t' ≠ "" then some ⟨role, t'⟩ else none
    else []
  uniqueL expanded

/-- `load_user_role_assignments_from_upload` (src/app.py lines 210-226). -/
def load_user_role_assignments_from_upload (rows : List UserRowRaw) : List URRow :=
  uniqueL (rows.flatMap fun r =>
    let uid := pyStrip (strNA r.user_id)
    let uname := pyStrip (strNA r.user_name)
    r.roleCells.filterMap fun cell =>
      let role := pyUpper (pyStrip (strNA cell))
      if role ≠ "" ∧ role ∉ (["nan", "NaN", ""] : List String) then
        some ⟨uid, uname, role⟩
      else none)

/-- `create_user_tcode_mapping` (src/app.py lines 231-240): inner join of the
user→role edges with the role→tcode edges on `role`. -/
def create_user_tcode_mapping (user_roles : List URRow) (role_tcodes : List RTRow) :
    List UTRow :=
  if user_roles = [] ∨ role_tcodes = [] then []
  else user_roles.flatMap fun a =>
    (role_tcodes.filter fun b => b.role == a.role).map fun b =>
      ⟨a.user_id, a.user_name, a.role, b.tcode⟩

/-- First half of `load_risk_data_from_upload` (src/app.py lines 262-273):
the expanded function→tcode mapping. -/
def load_function_map (rows : List FuncMapRow) : List FMRow :=
  uniqueL (rows.flatMap fun r =>
    let fid := pyUpper (pyStrip (strNA r.function_id))
    let tcodes := pyStrip (strNA r.tcode)
    if tcodes ≠ "" ∧ pyLower tcodes ∉ (["nan", ""] : List String) then
      (pySplitComma tcodes).filterMap fun t =>
        let t' := pyUpper (pyStrip t)
        if t' ≠ "" then some ⟨fid, t'⟩ else none
    else [])

/-- Normalization of one `conflicting_function*` cell (src/app.py lines
288-293): skip NaN, strip+upper, drop a trailing " - description" suffix. -/
def normCell (o : Option String) : Option String :=
  o.map fun s => pyStrip (takeBeforeDash (pyUpper (pyStrip s)))

/-- The normalized function values collected from one risk row. -/
def rowFunctions (row : RiskSheetRow) : List String := row.cells.filterMap normCell

/-- The `risk_function_pairs` records emitted for one risk row (src/app.py
lines 284-302): `functions = sorted(set(functions))`, then every i<j pair. -/
def riskRowRecs (row : RiskSheetRow) : List RPRec :=
  let rid := pyUpper (pyStrip (strNA row.access_risk_id))
  let fs := sortStr (uniqueL (rowFunctions row))
  (allPairs fs).map fun q => ⟨rid, q.1, q.2⟩

/-- The `", ".join(sorted(set(tcodes)))` annotation for one function
(`func_tcodes` groupby, src/app.py lines 307-309); `none` when the left join
finds no row for the function. -/
def funcTcodeStr (fme : List FMRow) (f : String) : Option String :=
  let ts := (fme.filter fun r => r.function_id == f).map (·.tcode)
  if ts = [] then none else some (joinComma (sortStr (uniqueL ts)))

/-- Second half of `load_risk_data_from_upload` (src/app.py lines 283-318):
build `risk_pairs_df` = deduplicated pair records + tcode annotations. -/
def load_risk_pairs (fme : List FMRow) (riskRows : List RiskSheetRow) : List RPRow :=
  (uniqueL (riskRows.flatMap riskRowRecs)).map fun rec =>
    ⟨rec.risk_id, rec.function_1, rec.function_2,
      funcTcodeStr fme rec.function_1, funcTcodeStr fme rec.function_2⟩

/-- The `user_functions` inner join of `analyze_conflicts` (src/app.py line
330). -/
def userFunctionsTable (utc : List UTRow) (fm : List FMRow) : List UFRow :=
  utc.flatMap fun a =>
    (fm.filter fun b => b.tcode == a.tcode).map fun b =>
      ⟨a.user_id, a.user_name, a.role, a.tcode, b.function_id⟩

/-- Column selection/renaming of one joined bulk row (src/app.py lines
335-336): `a` is the `_f1` side, `b` the `_f2` side. -/
def mkBulkRow (a : UFRow) (r : RPRow) (b : UFRow) : BulkRow :=
  ⟨a.user_id, a.user_name, a.role, b.role, r.risk_id, r.function_1, r.function_2,
    r.tcode1, r.tcode2, a.tcode, b.tcode⟩

/-- `analyze_conflicts` (src/app.py lines 324-339): the bulk relational-join
path. -/
def analyze_conflicts (utc : List UTRow) (fm : List FMRow) (rp : List RPRow) :
    List BulkRow :=
  if utc = [] then []
  else
    let uf := userFunctionsTable utc fm
    let c1 := uf.flatMap fun a =>
      (rp.filter fun r => r.function_1 == a.function_id).map fun r => (a, r)
    let c2 := c1.flatMap fun ar =>
      (uf.filter fun b => b.function_id == ar.2.function_2 && b.user_id == ar.1.user_id).map
        fun b => (ar.1, ar.2, b)
    uniqueL (c2.map fun x => mkBulkRow x.1 x.2.1 x.2.2)

/-- The values Python treats as invalid in the single-user filter
(src/app.py line 388). -/
def badVals : List String := ["nan", "NaN", "None", ""]

/-- The skip condition of the single-user loop (src/app.py lines 387-389):
`not all([...]) or any(x in ["nan","NaN","None",""] for x in [...])` on the
stripped `function_1`, `function_2`, `risk_id` of the catalog row. -/
def rpSkip (p : RPRow) : Prop :=
  ¬(pyStrip p.function_1 ≠ "" ∧ pyStrip p.function_2 ≠ "" ∧ pyStrip p.risk_id ≠ "") ∨
    pyStrip p.function_1 ∈ badVals ∨ pyStrip p.function_2 ∈ badVals ∨
      pyStrip p.risk_id ∈ badVals

instance (p : RPRow) : Decidable (rpSkip p) := by
  unfold rpSkip
  exact inferInstance

/-- The rows of the user→tcode index belonging to one (already stripped)
user id (src/app.py line 347). -/
def userRows (uid : String) (utc : List UTRow) : List UTRow :=
  utc.filter fun a => a.user_id == uid

/-- The `user_func = user_data_df.merge(function_map, on="tcode", how="left")`
left join (src/app.py line 360): unmatched rows keep a NaN function. -/
def leftJoinFM (rows : List UTRow) (fm : List FMRow) : List (UTRow × Option FMRow) :=
  rows.flatMap fun a =>
    let ms := fm.filter fun b => b.tcode == a.tcode
    if ms = [] then [(a, none)] else ms.map fun b => (a, some b)

/-- The function ids with `pd.notna` in the left join — the keys of the
`user_function_access` dict (src/app.py lines 361, 366-376). -/
def accessFuncIds (uf : List (UTRow × Option FMRow)) : List String :=
  uf.filterMap fun x => x.2.map (·.function_id)

/-- The effective function id set of a user, as the single-user path sees it. -/
def userFuncs (uid : String) (utc : List UTRow) (fm : List FMRow) : List String :=
  accessFuncIds (leftJoinFM (userRows uid utc) fm)

/-- `sorted(user_function_access[f]["roles"])` (src/app.py lines 397, 408). -/
def funcRolesSorted (uf : List (UTRow × Option FMRow)) (f : String) : List String :=
  sortStr (uniqueL (uf.filterMap fun x =>
    if x.2.map (·.function_id) == some f then some x.1.role else none))

/-- `sorted(user_function_access[f]["tcodes"])` (src/app.py lines 399, 410). -/
def funcTcodesSorted (uf : List (UTRow × Option FMRow)) (f : String) : List String :=
  sortStr (uniqueL (uf.filterMap fun x =>
    if x.2.map (·.function_id) == some f then some x.1.tcode else none))

/-- The conflict dict appended for a matching risk row (src/app.py lines
402-412). -/
def mkConflict (uf : List (UTRow × Option FMRow)) (p : RPRow) : Conflict :=
  let f1 := pyStrip p.function_1
  let f2 := pyStrip p.function_2
  let rid := pyStrip p.risk_id
  let r1 := joinComma (funcRolesSorted uf f1)
  let r2 := joinComma (funcRolesSorted uf f2)
  { ctype := "SoD Violation (" ++ rid ++ ")"
    function_1 := f1
    function_2 := f2
    description := "User has access to conflicting functions: " ++ f1 ++
      " through roles " ++ r1 ++ " AND " ++ f2 ++ " through roles " ++ r2 ++
      ". This violates segregation of duties."
    risk_id := rid
    role_1 := r1
    role_2 := r2
    tcode_1 := joinComma (funcTcodesSorted uf f1)
    tcode_2 := joinComma (funcTcodesSorted uf f2) }

/-- The dedup key `tuple(sorted([func1_name, func2_name]))` of a catalog row
(src/app.py line 393). -/
def conflictKey (p : RPRow) : String × String :=
  sortPair (pyStrip p.function_1) (pyStrip p.function_2)

/-- The dedup key of an emitted conflict. -/
def cKey (c : Conflict) : String × String := sortPair c.function_1 c.function_2

/-- The `for _, risk_pair in risk_pairs.iterrows()` loop with its
`processed_pairs` set (src/app.py lines 379-412). -/
def conflictLoop (uf : List (UTRow × Option FMRow)) (funcs : List String) :
    List RPRow → List (String × String) → List Conflict
  | [], _ => []
  | p :: rest, processed =>
    if rpSkip p then conflictLoop uf funcs rest processed
    else if pyStrip p.function_1 ∈ funcs ∧ pyStrip p.function_2 ∈ funcs then
      if conflictKey p ∈ processed then conflictLoop uf funcs rest processed
      else mkConflict uf p :: conflictLoop uf funcs rest (conflictKey p :: processed)
    else conflictLoop uf funcs rest processed

/-- A catalog row qualifies for a user when it passes the single-user
validity filter and both of its stripped functions are in the user's
effective function set. -/
def rpQual (funcs : List String) (p : RPRow) : Prop :=
  ¬ rpSkip p ∧ pyStrip p.function_1 ∈ funcs ∧ pyStrip p.function_2 ∈ funcs

instance (funcs : List String) (p : RPRow) : Decidable (rpQual funcs p) := by
  unfold rpQual
  exact inferInstance

/-- Boolean test: the row qualifies and has dedup key `k`. -/
def qualB (funcs : List String) (k : String × String) (p : RPRow) : Bool :=
  decide (rpQual funcs p ∧ conflictKey p = k)

/-- The first catalog row, in row order, that qualifies with dedup key `k`. -/
def firstQual (funcs : List String) (k : String × String) (rps : List RPRow) :
    Option RPRow :=
  rps.find? (qualB funcs k)

/-- `analyze_user_conflicts` (src/app.py lines 341-425): the single-user
path. -/
def analyze_user_conflicts (user_id : String) (utc : List UTRow) (fm : List FMRow)
    (rp : List RPRow) : UserReport :=
  let uid := pyStrip user_id
  let rows := userRows uid utc
  if h : rows = [] then
    { user_id := uid, user_name := "", roles := [], functions := [], tcodes := [],
      conflicts := [], conflict_count := 0,
      error := some ("User " ++ uid ++ " not found") }
  else
    let user_name := (rows.head h).user_name
    let user_roles := uniqueL (rows.map (·.role))
    let user_tcodes_list := uniqueL (rows.map (·.tcode))
    if user_tcodes_list.length = 0 then
      { user_id := uid, user_name := user_name, roles := user_roles, functions := [],
        tcodes := [], conflicts := [], conflict_count := 0,
        error := some ("No T-codes found for user " ++ uid) }
    else
      let uf := leftJoinFM rows fm
      let funcs := accessFuncIds uf
      let conflicts := conflictLoop uf funcs rp []
      { user_id := uid, user_name := user_name, roles := user_roles,
        functions := uniqueL funcs, tcodes := user_tcodes_list,
        conflicts := conflicts, conflict_count := conflicts.length, error := none }

/-- `create_user_summary` (src/app.py lines 427-449). -/
def create_user_summary (conflicts_df : List BulkRow) (user_tcodes_df : List UTRow) :
    List SummaryRow :=
  (uniqueL (user_tcodes_df.map (·.user_id))).map fun uid =>
    let user_data := user_tcodes_df.filter fun r => r.user_id == uid
    let user_name := ((user_data.head?).map (·.user_name)).getD ""
    let roles := uniqueL (user_data.map (·.role))
    let tcodes := uniqueL (user_data.map (·.tcode))
    let conflict_count :=
      if conflicts_df = [] then 0
      else (conflicts_df.filter fun c => c.user_id == uid).length
    { user_id := uid, user_name := user_name, roles := joinComma roles,
      total_roles := roles.length, total_tcodes := tcodes.length,
      conflict_count := conflict_count,
      risk_status := if conflict_count > 0 then "HIGH RISK" else "SAFE" }

/-- The conflict dict the single-user path emits for the concrete scenario
user U1 = {R1 → T1 → F1, R1 → T2 → F2} against the risk pair (R2, F1, F2);
used as a concrete input in witnesses. -/
def conflictR2 : Conflict :=
  { ctype := "SoD Violation (R2)", function_1 := "F1", function_2 := "F2",
    description := "User has access to conflicting functions: F1 through roles R1 AND F2 through roles R1. This violates segregation of duties.",
    risk_id := "R2", role_1 := "R1", role_2 := "R1", tcode_1 := "T1", tcode_2 := "T2" }

theorem mem_dedupAux [DecidableEq α] (x : α) :
    ∀ (l seen : List α), x ∈ dedupAux seen l ↔ x ∈ l ∧ x ∉ seen := by
  intro l
  induction l with
  | nil => intro seen; simp [dedupAux]
  | cons a l ih =>
    intro seen
    by_cases ha : a ∈ seen
    · rw [dedupAux, if_pos ha, ih]
      constructor
      · rintro ⟨hx, hs⟩
        exact ⟨List.mem_cons_of_mem _ hx, hs⟩
      · rintro ⟨hx, hs⟩
        rcases List.mem_cons.mp hx with rfl | hx'
        · exact absurd ha hs
        · exact ⟨hx', hs⟩
    · rw [dedupAux, if_neg ha]
      constructor
      · intro h
        rcases List.mem_cons.mp h with rfl | h'
        · exact ⟨List.mem_cons_self _ _, ha⟩
        · rcases (ih (a :: seen)).mp h' with ⟨hx, hs⟩
          exact ⟨List.mem_cons_of_mem _ hx, fun hmem => hs (List.mem_cons_of_mem _ hmem)⟩
      · rintro ⟨hx, hs⟩
        rcases List.mem_cons.mp hx with rfl | hx'
        · exact List.mem_cons_self _ _
        · by_cases hxa : x = a
          · subst hxa; exact List.mem_cons_self _ _
          · refine List.mem_cons_of_mem _ ((ih (a :: seen)).mpr ⟨hx', fun hmem => ?_⟩)
            rcases List.mem_cons.mp hmem with h' | h'
            · exact hxa h'
            · exact hs h'

theorem nodup_dedupAux [DecidableEq α] :
    ∀ (l seen : List α), (dedupAux seen l).Nodup := by
  intro l
  induction l with
  | nil => intro seen; simp [dedupAux]
  | cons a l ih =>
    intro seen
    by_cases ha : a ∈ seen
    · simpa [dedupAux, if_pos ha] using ih seen
    · simp only [dedupAux, if_neg ha, List.nodup_cons]
      refine ⟨fun h => ?_, ih _⟩
      have := (mem_dedupAux a l (a :: seen)).mp h
      exact this.2 (List.mem_cons_self _ _)

theorem mem_uniqueL [DecidableEq α] {x : α} {l : List α} : x ∈ uniqueL l ↔ x ∈ l := by
  simp [uniqueL, mem_dedupAux]

theorem nodup_uniqueL [DecidableEq α] (l : List α) : (uniqueL l).Nodup :=
  nodup_dedupAux l []

theorem uniqueL_cons_ne_nil [DecidableEq α] (a : α) (l : List α) :
    uniqueL (a :: l) ≠ [] := by
  simp [uniqueL, dedupAux]

theorem sortStr_perm (l : List String) : List.Perm (sortStr l) l :=
  List.perm_insertionSort _ l

theorem sortStr_sorted (l : List String) : (sortStr l).Pairwise sLe :=
  List.sorted_insertionSort _ l

theorem allPairs_length : ∀ l : List String, (allPairs l).length = l.length.choose 2 := by
  intro l
  induction l with
  | nil => simp [allPairs]
  | cons a l ih =>
    simp only [allPairs, List.length_append, List.length_map, ih, List.length_cons]
    rw [Nat.choose_succ_succ l.length 1, Nat.choose_one_right, Nat.add_comm]

theorem allPairs_lt :
    ∀ l : List String, l.Pairwise sLt → ∀ q ∈ allPairs l, sLt q.1 q.2 := by
  intro l
  induction l with
  | nil => intro _ q hq; simp [allPairs] at hq
  | cons a l ih =>
    intro hp q hq
    rcases List.pairwise_cons.mp hp with ⟨ha, hl⟩
    rcases List.mem_append.mp hq with h | h
    · rcases List.mem_map.mp h with ⟨b, hb, rfl⟩
      exact ha b hb
    · exact ih hl q h

theorem allPairs_complete :
    ∀ l : List String, l.Pairwise sLe →
      ∀ a b, a ∈ l → b ∈ l → sLt a b → (a, b) ∈ allPairs l := by
  intro l
  induction l with
  | nil => intro _ a b ha; simp at ha
  | cons x l ih =>
    intro hs a b ha hb hab
    rcases List.pairwise_cons.mp hs with ⟨hx, hl⟩
    rcases List.mem_cons.mp ha with rfl | ha'
    · rcases List.mem_cons.mp hb with rfl | hb'
      · exact absurd hab (lt_irrefl _)
      · exact List.mem_append.mpr (Or.inl (List.mem_map.mpr ⟨b, hb', rfl⟩))
    · rcases List.mem_cons.mp hb with rfl | hb'
      · exact absurd (lt_of_le_of_lt (hx a ha') hab) (lt_irrefl _)
      · exact List.mem_append.mpr (Or.inr (ih hl a b ha' hb' hab))

theorem qualB_false_of_skip {funcs : List String} {k : String × String} {p : RPRow}
    (h : rpSkip p) : qualB funcs k p = false :=
  decide_eq_false fun hc => hc.1.1 h

theorem qualB_false_of_not_mem {funcs : List String} {k : String × String} {p : RPRow}
    (h : ¬(pyStrip p.function_1 ∈ funcs ∧ pyStrip p.function_2 ∈ funcs)) :
    qualB funcs k p = false :=
  decide_eq_false fun hc => h ⟨hc.1.2.1, hc.1.2.2⟩

theorem qualB_false_of_key_ne {funcs : List String} {k : String × String} {p : RPRow}
    (h : conflictKey p ≠ k) : qualB funcs k p = false :=
  decide_eq_false fun hc => h hc.2

theorem qualB_true {funcs : List String} {k : String × String} {p : RPRow}
    (h1 : ¬ rpSkip p) (h2 : pyStrip p.function_1 ∈ funcs ∧ pyStrip p.function_2 ∈ funcs)
    (h3 : conflictKey p = k) : qualB funcs k p = true :=
  decide_eq_true ⟨⟨h1, h2.1, h2.2⟩, h3⟩

theorem find?_cons_false {α : Type _} {p : α → Bool} {a : α} {l : List α}
    (h : p a = false) : (a :: l).find? p = l.find? p :=
  List.find?_cons_of_neg _ (by simp [h])

theorem cKey_mkConflict (uf : List (UTRow × Option FMRow)) (p : RPRow) :
    cKey (mkConflict uf p) = conflictKey p := rfl

theorem conflictLoop_spec (uf : List (UTRow × Option FMRow)) (funcs : List String) :
    ∀ (rps : List RPRow) (processed : List (String × String)) (c : Conflict),
      c ∈ conflictLoop uf funcs rps processed →
        cKey c ∉ processed ∧
          ∃ p, firstQual funcs (cKey c) rps = some p ∧ c = mkConflict uf p := by
  intro rps
  induction rps with
  | nil => intro processed c hc; simp [conflictLoop] at hc
  | cons p rest ih =>
    intro processed c hc
    simp only [conflictLoop] at hc
    by_cases hskip : rpSkip p
    · rw [if_pos hskip] at hc
      obtain ⟨h1, q, hq, hcq⟩ := ih processed c hc
      exact ⟨h1, q, by
        simp only [firstQual, find?_cons_false (qualB_false_of_skip hskip)]
        exact hq, hcq⟩
    · rw [if_neg hskip] at hc
      by_cases hmem : pyStrip p.function_1 ∈ funcs ∧ pyStrip p.function_2 ∈ funcs
      · rw [if_pos hmem] at hc
        by_cases hkey : conflictKey p ∈ processed
        · rw [if_pos hkey] at hc
          obtain ⟨h1, q, hq, hcq⟩ := ih processed c hc
          have hck : conflictKey p ≠ cKey c := fun he => h1 (he ▸ hkey)
          exact ⟨h1, q, by
            simp only [firstQual, find?_cons_false (qualB_false_of_key_ne hck)]
            exact hq, hcq⟩
        · rw [if_neg hkey] at hc
          rcases List.mem_cons.mp hc with rfl | hc'
          · refine ⟨by rw [cKey_mkConflict]; exact hkey, p, ?_, rfl⟩
            simp only [firstQual]
            exact List.find?_cons_of_pos _
              (qualB_true hskip hmem (cKey_mkConflict uf p).symm)
          · obtain ⟨h1, q, hq, hcq⟩ := ih (conflictKey p :: processed) c hc'
            have h1p : cKey c ∉ processed := fun h => h1 (List.mem_cons_of_mem _ h)
            have hne : conflictKey p ≠ cKey c := fun he => h1 (he ▸ List.mem_cons_self _ _)
            exact ⟨h1p, q, by
              simp only [firstQual, find?_cons_false (qualB_false_of_key_ne hne)]
              exact hq, hcq⟩
      · rw [if_neg hmem] at hc
        obtain ⟨h1, q, hq, hcq⟩ := ih processed c hc
        exact ⟨h1, q, by
          simp only [firstQual, find?_cons_false (qualB_false_of_not_mem hmem)]
          exact hq, hcq⟩

theorem conflictLoop_complete (uf : List (UTRow × Option FMRow)) (funcs : List String) :
    ∀ (rps : List RPRow) (processed : List (String × String)) (p : RPRow),
      p ∈ rps → rpQual funcs p → conflictKey p ∉ processed →
        ∃ c ∈ conflictLoop uf funcs rps processed, cKey c = conflictKey p := by
  intro rps
  induction rps with
  | nil => intro processed p hp; simp at hp
  | cons q rest ih =>
    intro processed p hp hqual hkey
    simp only [conflictLoop]
    by_cases hskip : rpSkip q
    · rw [if_pos hskip]
      rcases List.mem_cons.mp hp with rfl | hp'
      · exact absurd hskip hqual.1
      · exact ih processed p hp' hqual hkey
    · rw [if_neg hskip]
      by_cases hmem : pyStrip q.function_1 ∈ funcs ∧ pyStrip q.function_2 ∈ funcs
      · rw [if_pos hmem]
        by_cases hk : conflictKey q ∈ processed
        · rw [if_pos hk]
          rcases List.mem_cons.mp hp with rfl | hp'
          · exact absurd hk hkey
          · exact ih processed p hp' hqual hkey
        · rw [if_neg hk]
          by_cases heq : conflictKey p = conflictKey q
          · exact ⟨mkConflict uf q, List.mem_cons_self _ _, by rw [cKey_mkConflict, heq]⟩
          · rcases List.mem_cons.mp hp with rfl | hp'
            · exact absurd rfl heq
            · obtain ⟨c, hc, hck⟩ := ih (conflictKey q :: processed) p hp' hqual (by
                intro h
                rcases List.mem_cons.mp h with h' | h'
                · exact heq h'
                · exact hkey h')
              exact ⟨c, List.mem_cons_of_mem _ hc, hck⟩
      · rw [if_neg hmem]
        rcases List.mem_cons.mp hp with rfl | hp'
        · exact absurd ⟨hqual.2.1, hqual.2.2⟩ hmem
        · exact ih processed p hp' hqual hkey

theorem conflictLoop_nodup (uf : List (UTRow × Option FMRow)) (funcs : List String) :
    ∀ (rps : List RPRow) (processed : List (String × String)),
      (∀ c ∈ conflictLoop uf funcs rps processed, cKey c ∉ processed) ∧
        ((conflictLoop uf funcs rps processed).map cKey).Nodup := by
  intro rps
  induction rps with
  | nil => intro processed; simp [conflictLoop]
  | cons p rest ih =>
    intro processed
    simp only [conflictLoop]
    by_cases hskip : rpSkip p
    · rw [if_pos hskip]; exact ih processed
    · rw [if_neg hskip]
      by_cases hmem : pyStrip p.function_1 ∈ funcs ∧ pyStrip p.function_2 ∈ funcs
      · rw [if_pos hmem]
        by_cases hk : conflictKey p ∈ processed
        · rw [if_pos hk]; exact ih processed
        · rw [if_neg hk]
          obtain ⟨hin, hnd⟩ := ih (conflictKey p :: processed)
          constructor
          · intro c hc
            rcases List.mem_cons.mp hc with rfl | hc'
            · rw [cKey_mkConflict]; exact hk
            · exact fun h => (hin c hc') (List.mem_cons_of_mem _ h)
          · rw [List.map_cons, List.nodup_cons]
            refine ⟨?_, hnd⟩
            rw [cKey_mkConflict]
            intro h
            rcases List.mem_map.mp h with ⟨c, hc, hck⟩
            exact (hin c hc) (by rw [hck]; exact List.mem_cons_self _ _)
      · rw [if_neg hmem]; exact ih processed

theorem analyze_user_conflicts_not_found {user_id : String} {utc : List UTRow}
    {fm : List FMRow} {rp : List RPRow} (h : userRows (pyStrip user_id) utc = []) :
    analyze_user_conflicts user_id utc fm rp =
      { user_id := pyStrip user_id, user_name := "", roles := [], functions := [],
        tcodes := [], conflicts := [], conflict_count := 0,
        error := some ("User " ++ pyStrip user_id ++ " not found") } := by
  unfold analyze_user_conflicts
  simp [h]

theorem analyze_user_conflicts_found {user_id : String} {utc : List UTRow}
    {fm : List FMRow} {rp : List RPRow} (h : userRows (pyStrip user_id) utc ≠ []) :
    analyze_user_conflicts user_id utc fm rp =
      { user_id := pyStrip user_id,
        user_name := ((userRows (pyStrip user_id) utc).head h).user_name,
        roles := uniqueL ((userRows (pyStrip user_id) utc).map (·.role)),
        functions := uniqueL (userFuncs (pyStrip user_id) utc fm),
        tcodes := uniqueL ((userRows (pyStrip user_id) utc).map (·.tcode)),
        conflicts := conflictLoop (leftJoinFM (userRows (pyStrip user_id) utc) fm)
          (userFuncs (pyStrip user_id) utc fm) rp [],
        conflict_count := (conflictLoop (leftJoinFM (userRows (pyStrip user_id) utc) fm)
          (userFuncs (pyStrip user_id) utc fm) rp []).length,
        error := none } := by
  unfold analyze_user_conflicts
  rw [dif_neg h]
  have hlen : ¬ (uniqueL ((userRows (pyStrip user_id) utc).map (·.tcode))).length = 0 := by
    intro hlen0
    rcases hrows : userRows (pyStrip user_id) utc with _ | ⟨r, rs⟩
    · exact h hrows
    · rw [hrows, List.map_cons] at hlen0
      exact uniqueL_cons_ne_nil _ _ (List.length_eq_zero.mp hlen0)
  rw [if_neg hlen]
  rfl

theorem mem_userFunctionsTable {utc : List UTRow} {fm : List FMRow} {x : UFRow} :
    x ∈ userFunctionsTable utc fm ↔
      ∃ a ∈ utc, ∃ b ∈ fm, b.tcode = a.tcode ∧
        x = ⟨a.user_id, a.user_name, a.role, a.tcode, b.function_id⟩ := by
  unfold userFunctionsTable
  simp only [List.mem_flatMap, List.mem_map, List.mem_filter, beq_iff_eq]
  constructor
  · rintro ⟨a, ha, b, ⟨hb, hbt⟩, rfl⟩
    exact ⟨a, ha, b, hb, hbt, rfl⟩
  · rintro ⟨a, ha, b, hb, hbt, rfl⟩
    exact ⟨a, ha, b, ⟨hb, hbt⟩, rfl⟩

theorem mem_userFuncs {uid : String} {utc : List UTRow} {fm : List FMRow} {f : String} :
    f ∈ userFuncs uid utc fm ↔
      ∃ a ∈ utc, a.user_id = uid ∧ ∃ b ∈ fm, b.tcode = a.tcode ∧ b.function_id = f := by
  unfold userFuncs accessFuncIds leftJoinFM userRows
  simp only [List.mem_filterMap, List.mem_flatMap, List.mem_filter, beq_iff_eq]
  constructor
  · rintro ⟨x, ⟨a, ⟨ha, hauid⟩, hx⟩, hf⟩
    by_cases hms : fm.filter (fun b => b.tcode == a.tcode) = []
    · rw [if_pos hms] at hx
      rcases List.mem_singleton.mp hx with rfl
      simp at hf
    · rw [if_neg hms] at hx
      rcases List.mem_map.mp hx with ⟨b, hb, rfl⟩
      rcases List.mem_filter.mp hb with ⟨hbf, hbt⟩
      refine ⟨a, ha, hauid, b, hbf, beq_iff_eq.mp hbt, ?_⟩
      simpa using hf
  · rintro ⟨a, ha, hauid, b, hb, hbt, rfl⟩
    have hbm : b ∈ fm.filter (fun c => c.tcode == a.tcode) :=
      List.mem_filter.mpr ⟨hb, beq_iff_eq.mpr hbt⟩
    have hms : fm.filter (fun c => c.tcode == a.tcode) ≠ [] := by
      intro hnil; rw [hnil] at hbm; simp at hbm
    refine ⟨(a, some b), ⟨a, ⟨ha, hauid⟩, ?_⟩, rfl⟩
    rw [if_neg hms]
    exact List.mem_map.mpr ⟨b, hbm, rfl⟩

theorem mem_analyze_conflicts {utc : List UTRow} {fm : List FMRow} {rp : List RPRow}
    {r : BulkRow} :
    r ∈ analyze_conflicts utc fm rp ↔
      ∃ a ∈ userFunctionsTable utc fm, ∃ p ∈ rp, ∃ b ∈ userFunctionsTable utc fm,
        p.function_1 = a.function_id ∧ b.function_id = p.function_2 ∧
          b.user_id = a.user_id ∧ r = mkBulkRow a p b := by
  unfold analyze_conflicts
  by_cases h : utc = []
  · rw [if_pos h]
    subst h
    simp [userFunctionsTable]
  · rw [if_neg h]
    simp only [mem_uniqueL, List.mem_map, List.mem_flatMap, List.mem_filter,
      Bool.and_eq_true, beq_iff_eq]
    constructor
    · rintro ⟨x, ⟨ar, ⟨a, ha, p, ⟨hp, hpf⟩, rfl⟩, b, ⟨hb, hf2, huid⟩, rfl⟩, rfl⟩
      exact ⟨a, ha, p, hp, b, hb, hpf, hf2, huid, rfl⟩
    · rintro ⟨a, ha, p, hp, b, hb, hpf, hf2, huid, rfl⟩
      exact ⟨(a, p, b), ⟨(a, p), ⟨a, ha, p, ⟨hp, hpf⟩, rfl⟩, b, ⟨hb, hf2, huid⟩, rfl⟩, rfl⟩

theorem sLt_ne {a b : String} (h : sLt a b) : a ≠ b := by
  intro he
  subst he
  exact lt_irrefl _ h

theorem allPairs_eq_nil_of_short :
    ∀ l : List String, l.length < 2 → allPairs l = [] := by
  intro l h
  rcases l with _ | ⟨x, _ | ⟨y, t⟩⟩
  · rfl
  · rfl
  · simp only [List.length_cons] at h
    omega

theorem conflictLoop_filter_skip (uf : List (UTRow × Option FMRow)) (funcs : List String) :
    ∀ (rps : List RPRow) (processed : List (String × String)),
      conflictLoop uf funcs rps processed =
        conflictLoop uf funcs (rps.filter fun p => !decide (rpSkip p)) processed := by
  intro rps
  induction rps with
  | nil => intro processed; rfl
  | cons p rest ih =>
    intro processed
    by_cases hskip : rpSkip p
    · have hpred : (!decide (rpSkip p)) = false := by simp [hskip]
      simp only [conflictLoop, if_pos hskip, List.filter_cons, hpred]
      exact ih processed
    · have hpred : (!decide (rpSkip p)) = true := by simp [hskip]
      simp only [List.filter_cons, hpred, if_true, conflictLoop, if_neg hskip]
      by_cases hmem : pyStrip p.function_1 ∈ funcs ∧ pyStrip p.function_2 ∈ funcs
      · rw [if_pos hmem, if_pos hmem]
        by_cases hkey : conflictKey p ∈ processed
        · rw [if_pos hkey, if_pos hkey]
          exact ih processed
        · rw [if_neg hkey, if_neg hkey, ih (conflictKey p :: processed)]
      · rw [if_neg hmem, if_neg hmem]
        exact ih processed

/-- C5: `buildRiskPairs` emits, for a risk row with k distinct normalized
function values, exactly C(k,2) canonically oriented pairs — every unordered
pair among the distinct functions — and a row with fewer than two distinct
functions emits none; a row listing F1,F2,F3 yields exactly
(F1,F2),(F1,F3),(F2,F3). -/
theorem claim_C5_risk_row_pairs :
    (∀ row : RiskSheetRow,
      (riskRowRecs row).length = ((uniqueL (rowFunctions row)).length).choose 2 ∧
      (∀ a b, a ∈ uniqueL (rowFunctions row) → b ∈ uniqueL (rowFunctions row) →
        sLt a b → ∃ rec ∈ riskRowRecs row, rec.function_1 = a ∧ rec.function_2 = b) ∧
      ((uniqueL (rowFunctions row)).length < 2 → riskRowRecs row = [])) ∧
    riskRowRecs ⟨some "R01", [some "F1", some "F2", some "F3"]⟩ =
      [⟨"R01", "F1", "F2"⟩, ⟨"R01", "F1", "F3"⟩, ⟨"R01", "F2", "F3"⟩] := by
  constructor
  · intro row
    refine ⟨?_, ?_, ?_⟩
    · rw [riskRowRecs, List.length_map, allPairs_length,
        (sortStr_perm (uniqueL (rowFunctions row))).length_eq]
    · intro a b ha hb hab
      have ha' : a ∈ sortStr (uniqueL (rowFunctions row)) :=
        ((sortStr_perm _).mem_iff).mpr ha
      have hb' : b ∈ sortStr (uniqueL (rowFunctions row)) :=
        ((sortStr_perm _).mem_iff).mpr hb
      have hpair := allPairs_complete _ (sortStr_sorted _) a b ha' hb' hab
      exact ⟨⟨pyUpper (pyStrip (strNA row.access_risk_id)), a, b⟩,
        List.mem_map.mpr ⟨(a, b), hpair, rfl⟩, rfl, rfl⟩
    · intro hk
      have hfs : (sortStr (uniqueL (rowFunctions row))).length < 2 := by
        rw [(sortStr_perm (uniqueL (rowFunctions row))).length_eq]
        exact hk
      rw [riskRowRecs, allPairs_eq_nil_of_short _ hfs, List.map_nil]
  · decide

/-- C5 witness: the generic part applied to the concrete three-function row. -/
theorem claim_C5_risk_row_pairs_witness :
    (riskRowRecs ⟨some "R01", [some "F1", some "F2", some "F3"]⟩).length =
      ((uniqueL (rowFunctions ⟨some "R01", [some "F1", some "F2", some "F3"]⟩)).length).choose 2 ∧
    ∃ rec ∈ riskRowRecs ⟨some "R01", [some "F1", some "F2", some "F3"]⟩,
      rec.function_1 = "F1" ∧ rec.function_2 = "F3" :=
  ⟨(claim_C5_risk_row_pairs.1 ⟨some "R01", [some "F1", some "F2", some "F3"]⟩).1,
    (claim_C5_risk_row_pairs.1 ⟨some "R01", [some "F1", some "F2", some "F3"]⟩).2.1
      "F1" "F3" (by decide) (by decide) (by decide)⟩

/-- C6: every catalog row built by the risk loader is canonically oriented
(`function_1 < function_2` in the code-point order, hence no self-pair), and
the catalog is duplicate-free. -/
theorem claim_C6_canonical_orientation (fme : List FMRow) (riskRows : List RiskSheetRow) :
    (∀ p ∈ load_risk_pairs fme riskRows,
      sLt p.function_1 p.function_2 ∧ p.function_1 ≠ p.function_2) ∧
    (load_risk_pairs fme riskRows).Nodup := by
  constructor
  · intro p hp
    unfold load_risk_pairs at hp
    rcases List.mem_map.mp hp with ⟨rec, hrec, rfl⟩
    rcases List.mem_flatMap.mp (mem_uniqueL.mp hrec) with ⟨row, _, hrow⟩
    unfold riskRowRecs at hrow
    rcases List.mem_map.mp hrow with ⟨q, hq, rfl⟩
    have hnd : (sortStr (uniqueL (rowFunctions row))).Nodup :=
      ((sortStr_perm _).nodup_iff).mpr (nodup_uniqueL _)
    have hlt : (sortStr (uniqueL (rowFunctions row))).Pairwise sLt :=
      ((sortStr_sorted _).and hnd).imp fun h => sLt_of_sLe_of_ne h.1 h.2
    have := allPairs_lt _ hlt q hq
    exact ⟨this, sLt_ne this⟩
  · unfold load_risk_pairs
    refine List.Nodup.map ?_ (nodup_uniqueL _)
    intro r1 r2 h
    cases r1
    cases r2
    simp only [RPRow.mk.injEq] at h
    simp only [RPRec.mk.injEq]
    exact ⟨h.1, h.2.1, h.2.2.1⟩

/-- C6 witness: the theorem applied to a concrete catalog whose source row
lists a function twice. -/
theorem claim_C6_canonical_orientation_witness :
    sLt (⟨"R01", "F1", "F2", none, none⟩ : RPRow).function_1
        (⟨"R01", "F1", "F2", none, none⟩ : RPRow).function_2 ∧
    (load_risk_pairs [] [⟨some "R01", [some "F1", some "F1", some "F2"]⟩]).Nodup :=
  ⟨((claim_C6_canonical_orientation []
      [⟨some "R01", [some "F1", some "F1", some "F2"]⟩]).1
      ⟨"R01", "F1", "F2", none, none⟩ (by decide)).1,
    (claim_C6_canonical_orientation [] [⟨some "R01", [some "F1", some "F1", some "F2"]⟩]).2⟩

/-- C2 counterexample: a user reaching `function_1` through two different
(role, tcode) paths yields two bulk rows with the same
(user_id, risk_id, function_1, function_2). -/
theorem claim_C2_counterexample :
    ((analyze_conflicts
      [⟨"U1", "N", "R1", "T1"⟩, ⟨"U1", "N", "R2", "T2"⟩, ⟨"U1", "N", "R1", "T3"⟩]
      [⟨"F1", "T1"⟩, ⟨"F1", "T2"⟩, ⟨"F2", "T3"⟩]
      [⟨"R01", "F1", "F2", none, none⟩]).filter fun r =>
        r.user_id == "U1" && r.risk_id == "R01" && r.function_1 == "F1" &&
          r.function_2 == "F2").length = 2 := by decide

/-- C2 amended: the bulk result is deduplicated on the whole output row
(provenance columns included), so the returned list is duplicate-free as
rows, but not on the (user_id, risk_id, function_1, function_2) key. -/
theorem claim_C2_bulk_nodup (utc : List UTRow) (fm : List FMRow) (rp : List RPRow) :
    (analyze_conflicts utc fm rp).Nodup := by
  unfold analyze_conflicts
  by_cases h : utc = []
  · rw [if_pos h]
    exact List.nodup_nil
  · rw [if_neg h]
    exact nodup_uniqueL _

/-- C9: the single-user path can only ever return the "not found" error —
the "No T-codes" branch is unreachable — and it returns it exactly when the
user is absent from the (inner-joined) user→tcode index; every index row's
tcode comes from a role→tcode edge. -/
theorem claim_C9_no_tcodes_unreachable :
    (∀ (u : String) (utc : List UTRow) (fm : List FMRow) (rp : List RPRow),
      (∀ s, (analyze_user_conflicts u utc fm rp).error = some s →
        s = "User " ++ pyStrip u ++ " not found") ∧
      ((analyze_user_conflicts u utc fm rp).error =
          some ("User " ++ pyStrip u ++ " not found") ↔
        userRows (pyStrip u) utc = [])) ∧
    ∀ (ur : List URRow) (rt : List RTRow),
      ∀ r ∈ create_user_tcode_mapping ur rt,
        ∃ b ∈ rt, b.role = r.role ∧ b.tcode = r.tcode := by
  constructor
  · intro u utc fm rp
    by_cases h : userRows (pyStrip u) utc = []
    · rw [analyze_user_conflicts_not_found h]
      constructor
      · intro s hs
        exact (Option.some.inj hs).symm
      · simp [h]
    · rw [analyze_user_conflicts_found h]
      constructor
      · intro s hs
        simp at hs
      · simp [h]
  · intro ur rt r hr
    unfold create_user_tcode_mapping at hr
    by_cases hg : ur = [] ∨ rt = []
    · rw [if_pos hg] at hr
      simp at hr
    · rw [if_neg hg] at hr
      rcases List.mem_flatMap.mp hr with ⟨a, _, hmap⟩
      rcases List.mem_map.mp hmap with ⟨b, hb, rfl⟩
      rcases List.mem_filter.mp hb with ⟨hbm, hbr⟩
      exact ⟨b, hbm, beq_iff_eq.mp hbr, rfl⟩

/-- C9 witness. -/
theorem claim_C9_no_tcodes_unreachable_witness :
    ("User U1 not found" = "User " ++ pyStrip "U1" ++ " not found") ∧
    ((analyze_user_conflicts "U1" [] [] []).error =
      some ("User " ++ pyStrip "U1" ++ " not found")) ∧
    ∃ b ∈ [(⟨"R1", "T1"⟩ : RTRow)],
      b.role = (⟨"U1", "N", "R1", "T1"⟩ : UTRow).role ∧
      b.tcode = (⟨"U1", "N", "R1", "T1"⟩ : UTRow).tcode :=
  ⟨(claim_C9_no_tcodes_unreachable.1 "U1" [] [] []).1 "User U1 not found" (by decide),
    (claim_C9_no_tcodes_unreachable.1 "U1" [] [] []).2.mpr (by decide),
    claim_C9_no_tcodes_unreachable.2 [⟨"U1", "N", "R1"⟩] [⟨"R1", "T1"⟩]
      ⟨"U1", "N", "R1", "T1"⟩ (by decide)⟩

/-- C3 counterexample: a user holding one role that is absent from the
role→tcode mapping gets the "user not found" condition with empty roles —
not the "no action codes" condition the claim requires. -/
theorem claim_C3_counterexample :
    (analyze_user_conflicts "U1"
      (create_user_tcode_mapping [⟨"U1", "Alice", "R9"⟩] [⟨"R1", "T1"⟩]) [] []).error =
        some "User U1 not found" ∧
    (analyze_user_conflicts "U1"
      (create_user_tcode_mapping [⟨"U1", "Alice", "R9"⟩] [⟨"R1", "T1"⟩]) [] []).roles = [] ∧
    (analyze_user_conflicts "U1"
      (create_user_tcode_mapping [⟨"U1", "Alice", "R9"⟩] [⟨"R1", "T1"⟩]) [] []).error ≠
        some "No T-codes found for user U1" := by decide

/-- C3 amended: a user with at least one role, all of whose roles are absent
from the role→tcode mapping, is dropped by the inner join and the single-user
query returns the "user not found" condition with empty roles (the
"no action codes" condition is never produced). -/
theorem claim_C3_not_found_for_unmapped_roles (ur : List URRow) (rt : List RTRow)
    (fm : List FMRow) (rp : List RPRow) (u : String)
    (_hroles : ∃ a ∈ ur, a.user_id = pyStrip u)
    (hnone : ∀ a ∈ ur, a.user_id = pyStrip u → ∀ b ∈ rt, b.role ≠ a.role) :
    (analyze_user_conflicts u (create_user_tcode_mapping ur rt) fm rp).error =
      some ("User " ++ pyStrip u ++ " not found") ∧
    (analyze_user_conflicts u (create_user_tcode_mapping ur rt) fm rp).roles = [] := by
  have hempty : userRows (pyStrip u) (create_user_tcode_mapping ur rt) = [] := by
    rw [List.eq_nil_iff_forall_not_mem]
    intro r hr
    rcases List.mem_filter.mp hr with ⟨hrm, hru⟩
    unfold create_user_tcode_mapping at hrm
    by_cases hg : ur = [] ∨ rt = []
    · rw [if_pos hg] at hrm
      simp at hrm
    · rw [if_neg hg] at hrm
      rcases List.mem_flatMap.mp hrm with ⟨a, ha, hmap⟩
      rcases List.mem_map.mp hmap with ⟨b, hb, rfl⟩
      rcases List.mem_filter.mp hb with ⟨hbm, hbr⟩
      exact hnone a ha (beq_iff_eq.mp hru) b hbm (beq_iff_eq.mp hbr)
  rw [analyze_user_conflicts_not_found hempty]
  exact ⟨rfl, rfl⟩

/-- C3 witness. -/
theorem claim_C3_not_found_for_unmapped_roles_witness :
    (analyze_user_conflicts "U1"
      (create_user_tcode_mapping [⟨"U1", "Alice", "R9"⟩] [⟨"R1", "T1"⟩]) [] []).error =
      some ("User " ++ pyStrip "U1" ++ " not found") ∧
    (analyze_user_conflicts "U1"
      (create_user_tcode_mapping [⟨"U1", "Alice", "R9"⟩] [⟨"R1", "T1"⟩]) [] []).roles = [] :=
  claim_C3_not_found_for_unmapped_roles [⟨"U1", "Alice", "R9"⟩] [⟨"R1", "T1"⟩] [] [] "U1"
    ⟨⟨"U1", "Alice", "R9"⟩, by decide, by decide⟩ (by decide)

/-- C4 counterexample: the catalog's first row covering the pair (F1,F2) has
risk id "" and the user holds both functions, yet the emitted conflict
carries "R2" (the second row's id), because the first row is skipped by the
validity filter. -/
theorem claim_C4_counterexample :
    (analyze_user_conflicts "U1"
      [⟨"U1", "N", "R1", "T1"⟩, ⟨"U1", "N", "R1", "T2"⟩]
      [⟨"F1", "T1"⟩, ⟨"F2", "T2"⟩]
      [⟨"", "F1", "F2", none, none⟩, ⟨"R2", "F1", "F2", none, none⟩]).conflicts.map
        (·.risk_id) = ["R2"] ∧
    "F1" ∈ userFuncs "U1" [⟨"U1", "N", "R1", "T1"⟩, ⟨"U1", "N", "R1", "T2"⟩]
      [⟨"F1", "T1"⟩, ⟨"F2", "T2"⟩] ∧
    "F2" ∈ userFuncs "U1" [⟨"U1", "N", "R1", "T1"⟩, ⟨"U1", "N", "R1", "T2"⟩]
      [⟨"F1", "T1"⟩, ⟨"F2", "T2"⟩] ∧
    ([⟨"", "F1", "F2", none, none⟩,
      (⟨"R2", "F1", "F2", none, none⟩ : RPRow)].head?).map (·.risk_id) = some "" := by
  decide

/-- C4 amended: the single-user path emits at most one conflict per unordered
function pair, and every emitted conflict carries exactly the (stripped)
risk id and function ids of the first catalog row, in row order, that passes
the validity filter, covers the pair and has both functions held. -/
theorem claim_C4_first_valid_wins (u : String) (utc : List UTRow) (fm : List FMRow)
    (rp : List RPRow) :
    ((analyze_user_conflicts u utc fm rp).conflicts.map cKey).Nodup ∧
    ∀ c ∈ (analyze_user_conflicts u utc fm rp).conflicts,
      ∃ p, firstQual (userFuncs (pyStrip u) utc fm) (cKey c) rp = some p ∧
        c.risk_id = pyStrip p.risk_id ∧ c.function_1 = pyStrip p.function_1 ∧
          c.function_2 = pyStrip p.function_2 := by
  by_cases h : userRows (pyStrip u) utc = []
  · rw [analyze_user_conflicts_not_found h]
    exact ⟨by simp, by simp⟩
  · rw [analyze_user_conflicts_found h]
    refine ⟨(conflictLoop_nodup _ _ rp []).2, ?_⟩
    intro c hc
    obtain ⟨_, p, hp, rfl⟩ := conflictLoop_spec _ _ rp [] c hc
    exact ⟨p, hp, rfl, rfl, rfl⟩

/-- C4 witness: the generic theorem applied to the counterexample data. -/
theorem claim_C4_first_valid_wins_witness :
    ∃ p, firstQual (userFuncs (pyStrip "U1")
        [⟨"U1", "N", "R1", "T1"⟩, ⟨"U1", "N", "R1", "T2"⟩]
        [⟨"F1", "T1"⟩, ⟨"F2", "T2"⟩])
      (cKey conflictR2)
      [⟨"", "F1", "F2", none, none⟩, ⟨"R2", "F1", "F2", none, none⟩] = some p ∧
      conflictR2.risk_id = pyStrip p.risk_id ∧
      conflictR2.function_1 = pyStrip p.function_1 ∧
      conflictR2.function_2 = pyStrip p.function_2 :=
  (claim_C4_first_valid_wins "U1"
    [⟨"U1", "N", "R1", "T1"⟩, ⟨"U1", "N", "R1", "T2"⟩]
    [⟨"F1", "T1"⟩, ⟨"F2", "T2"⟩]
    [⟨"", "F1", "F2", none, none⟩, ⟨"R2", "F1", "F2", none, none⟩]).2
    conflictR2 (by decide)

theorem create_user_summary_mem {conflicts_df : List BulkRow} {utc : List UTRow}
    {s : SummaryRow} (hs : s ∈ create_user_summary conflicts_df utc) :
    s.conflict_count = (conflicts_df.filter fun c => c.user_id == s.user_id).length ∧
    s.risk_status = (if 0 < s.conflict_count then "HIGH RISK" else "SAFE") := by
  unfold create_user_summary at hs
  rcases List.mem_map.mp hs with ⟨uid, _, rfl⟩
  have hcount : (if conflicts_df = [] then 0
      else (conflicts_df.filter fun c => c.user_id == uid).length) =
      (conflicts_df.filter fun c => c.user_id == uid).length := by
    by_cases hfc : conflicts_df = []
    · rw [if_pos hfc, hfc]
      rfl
    · rw [if_neg hfc]
  exact ⟨hcount, rfl⟩

theorem create_user_summary_users (conflicts_df : List BulkRow) (utc : List UTRow) :
    (create_user_summary conflicts_df utc).map (·.user_id) =
      uniqueL (utc.map (·.user_id)) := by
  unfold create_user_summary
  generalize uniqueL (utc.map (·.user_id)) = l
  induction l with
  | nil => rfl
  | cons a t ih => simpa using ih

/-- C7: every summary row has risk_status "HIGH RISK" iff its conflict_count
is positive and risk_status "SAFE" iff its conflict_count is zero, the count
is the number of bulk conflict rows for that user ((risk_id, pair)
granularity), and every user of the access graph gets a summary row. -/
theorem claim_C7_summary (utc : List UTRow) (fm : List FMRow) (rp : List RPRow) :
    (∀ s ∈ create_user_summary (analyze_conflicts utc fm rp) utc,
      (s.risk_status = "HIGH RISK" ↔ 0 < s.conflict_count) ∧
      (s.risk_status = "SAFE" ↔ s.conflict_count = 0) ∧
      s.conflict_count =
        ((analyze_conflicts utc fm rp).filter fun c => c.user_id == s.user_id).length) ∧
    (create_user_summary (analyze_conflicts utc fm rp) utc).map (·.user_id) =
      uniqueL (utc.map (·.user_id)) := by
  constructor
  · intro s hs
    obtain ⟨h1, h2⟩ := create_user_summary_mem hs
    refine ⟨?_, ?_, h1⟩
    · constructor
      · intro hst
        rw [h2] at hst
        by_contra h0
        rw [if_neg h0] at hst
        exact (by decide : ("SAFE" : String) ≠ "HIGH RISK") hst
      · intro h0
        rw [h2, if_pos h0]
    · constructor
      · intro hst
        rw [h2] at hst
        by_contra h0
        have hpos : 0 < s.conflict_count := Nat.pos_of_ne_zero h0
        rw [if_pos hpos] at hst
        exact (by decide : ("HIGH RISK" : String) ≠ "SAFE") hst
      · intro h0
        have hneg : ¬ 0 < s.conflict_count := by omega
        rw [h2, if_neg hneg]
  · exact create_user_summary_users _ _

/-- C7 witness. -/
theorem claim_C7_summary_witness :
    (((⟨"U1", "N", "R1", 1, 2, 1, "HIGH RISK"⟩ : SummaryRow).risk_status = "HIGH RISK" ↔
      0 < (⟨"U1", "N", "R1", 1, 2, 1, "HIGH RISK"⟩ : SummaryRow).conflict_count) ∧
    ((⟨"U1", "N", "R1", 1, 2, 1, "HIGH RISK"⟩ : SummaryRow).risk_status = "SAFE" ↔
      (⟨"U1", "N", "R1", 1, 2, 1, "HIGH RISK"⟩ : SummaryRow).conflict_count = 0) ∧
    (⟨"U1", "N", "R1", 1, 2, 1, "HIGH RISK"⟩ : SummaryRow).conflict_count =
      ((analyze_conflicts [⟨"U1", "N", "R1", "T1"⟩, ⟨"U1", "N", "R1", "T2"⟩]
        [⟨"F1", "T1"⟩, ⟨"F2", "T2"⟩] [⟨"R2", "F1", "F2", none, none⟩]).filter fun c =>
          c.user_id == (⟨"U1", "N", "R1", 1, 2, 1, "HIGH RISK"⟩ : SummaryRow).user_id).length) :=
  (claim_C7_summary [⟨"U1", "N", "R1", "T1"⟩, ⟨"U1", "N", "R1", "T2"⟩]
    [⟨"F1", "T1"⟩, ⟨"F2", "T2"⟩] [⟨"R2", "F1", "F2", none, none⟩]).1
    ⟨"U1", "N", "R1", 1, 2, 1, "HIGH RISK"⟩ (by decide)

/-- C10: the single-user path silently skips catalog rows whose stripped
risk id or function ids are in {"nan","NaN","None",""} — its output never
carries such values, is unchanged when the invalid rows are removed, and an
invalid row alone never produces a conflict — while the bulk path applies no
such filter (a catalog row with risk id "nan" joins into a bulk conflict). -/
theorem claim_C10_single_filter_bulk_none :
    (∀ (u : String) (utc : List UTRow) (fm : List FMRow) (rp : List RPRow),
      ∀ c ∈ (analyze_user_conflicts u utc fm rp).conflicts,
        c.risk_id ∉ badVals ∧ c.function_1 ∉ badVals ∧ c.function_2 ∉ badVals) ∧
    (∀ (u : String) (utc : List UTRow) (fm : List FMRow) (rp : List RPRow),
      (analyze_user_conflicts u utc fm rp).conflicts =
        (analyze_user_conflicts u utc fm (rp.filter fun p => !decide (rpSkip p))).conflicts) ∧
    (∀ (u : String) (utc : List UTRow) (fm : List FMRow) (p : RPRow), rpSkip p →
      (analyze_user_conflicts u utc fm [p]).conflicts = []) ∧
    analyze_conflicts [⟨"U1", "N", "R1", "T1"⟩, ⟨"U1", "N", "R1", "T2"⟩]
      [⟨"F1", "T1"⟩, ⟨"F2", "T2"⟩] [⟨"nan", "F1", "F2", none, none⟩] =
      [⟨"U1", "N", "R1", "R1", "nan", "F1", "F2", none, none, "T1", "T2"⟩] := by
  refine ⟨?_, ?_, ?_, by decide⟩
  · intro u utc fm rp c hc
    by_cases h : userRows (pyStrip u) utc = []
    · rw [analyze_user_conflicts_not_found h] at hc
      simp at hc
    · rw [analyze_user_conflicts_found h] at hc
      obtain ⟨_, p, hp, rfl⟩ := conflictLoop_spec _ _ rp [] c hc
      have hq := List.find?_some hp
      have hskip := (of_decide_eq_true hq).1.1
      exact ⟨fun hbad => hskip (Or.inr (Or.inr (Or.inr hbad))),
        fun hbad => hskip (Or.inr (Or.inl hbad)),
        fun hbad => hskip (Or.inr (Or.inr (Or.inl hbad)))⟩
  · intro u utc fm rp
    by_cases h : userRows (pyStrip u) utc = []
    · rw [analyze_user_conflicts_not_found h, analyze_user_conflicts_not_found h]
    · rw [analyze_user_conflicts_found h, analyze_user_conflicts_found h]
      exact conflictLoop_filter_skip _ _ rp []
  · intro u utc fm p hskip
    by_cases h : userRows (pyStrip u) utc = []
    · rw [analyze_user_conflicts_not_found h]
    · rw [analyze_user_conflicts_found h]
      show conflictLoop _ _ [p] [] = []
      simp only [conflictLoop, if_pos hskip]

/-- C10 witness. -/
theorem claim_C10_single_filter_bulk_none_witness :
    (conflictR2.risk_id ∉ badVals ∧ conflictR2.function_1 ∉ badVals ∧
      conflictR2.function_2 ∉ badVals) ∧
    (analyze_user_conflicts "U1" [] [] [⟨"", "", "", none, none⟩]).conflicts = [] :=
  ⟨claim_C10_single_filter_bulk_none.1 "U1"
      [⟨"U1", "N", "R1", "T1"⟩, ⟨"U1", "N", "R1", "T2"⟩]
      [⟨"F1", "T1"⟩, ⟨"F2", "T2"⟩] [⟨"R2", "F1", "F2", none, none⟩]
      conflictR2 (by decide),
    claim_C10_single_filter_bulk_none.2.2.1 "U1" [] [] ⟨"", "", "", none, none⟩
      (by decide)⟩

/-- C8 counterexample: a role cell "none" produces a user→role edge "NONE",
and a tcode sub-token "nan" produces a role→tcode edge "NAN" — both should be
dropped according to the claim. -/
theorem claim_C8_counterexample :
    load_user_role_assignments_from_upload [⟨some "U1", some "Alice", [some "none"]⟩] =
      [⟨"U1", "Alice", "NONE"⟩] ∧
    load_role_tcode_mapping_from_upload [⟨some "r1", some "FB01, nan"⟩] =
      [⟨"R1", "FB01"⟩, ⟨"R1", "NAN"⟩] := by decide

/-- C8 amended: the loaders only drop empty values — the user→role loader
upper-cases before comparing with ["nan","NaN",""] so only "" is ever
dropped ("none"/"nan"/NaN become edges "NONE"/"NAN"); the role→tcode loader
drops a whole field equal (after strip) to ""/"nan"/"NaN" before splitting,
but after splitting drops only empty sub-tokens ("nan"/"none" tokens become
edges "NAN"/"NONE"). -/
theorem claim_C8_effective_filters :
    (∀ (rows : List UserRowRaw),
      ∀ e ∈ load_user_role_assignments_from_upload rows, e.role ≠ "") ∧
    (∀ (rows : List RoleMapRow),
      ∀ e ∈ load_role_tcode_mapping_from_upload rows, e.tcode ≠ "") ∧
    load_user_role_assignments_from_upload
      [⟨some "U1", some "Alice", [some "none", some "nan", none, some " "]⟩] =
      [⟨"U1", "Alice", "NONE"⟩, ⟨"U1", "Alice", "NAN"⟩] ∧
    load_role_tcode_mapping_from_upload [⟨some "r1", some " nan "⟩] = [] ∧
    load_role_tcode_mapping_from_upload [⟨some "r1", some "FB01, , none"⟩] =
      [⟨"R1", "FB01"⟩, ⟨"R1", "NONE"⟩] := by
  refine ⟨?_, ?_, by decide, by decide, by decide⟩
  · intro rows e he
    unfold load_user_role_assignments_from_upload at he
    rcases List.mem_flatMap.mp (mem_uniqueL.mp he) with ⟨r, _, hmem⟩
    rcases List.mem_filterMap.mp hmem with ⟨cell, _, hcell⟩
    by_cases hcond : pyUpper (pyStrip (strNA cell)) ≠ "" ∧
        pyUpper (pyStrip (strNA cell)) ∉ (["nan", "NaN", ""] : List String)
    · rw [if_pos hcond] at hcell
      cases Option.some.inj hcell
      exact hcond.1
    · rw [if_neg hcond] at hcell
      exact absurd hcell (by simp)
  · intro rows e he
    unfold load_role_tcode_mapping_from_upload at he
    rcases List.mem_flatMap.mp (mem_uniqueL.mp he) with ⟨r, _, hmem⟩
    by_cases hcond : pyStrip (strNA r.tcode) ≠ "" ∧
        pyStrip (strNA r.tcode) ∉ (["nan", "NaN", ""] : List String)
    · rw [if_pos hcond] at hmem
      rcases List.mem_filterMap.mp hmem with ⟨t, _, ht⟩
      by_cases htc : pyUpper (pyStrip t) ≠ ""
      · rw [if_pos htc] at ht
        cases Option.some.inj ht
        exact htc
      · rw [if_neg htc] at ht
        exact absurd ht (by simp)
    · rw [if_neg hcond] at hmem
      simp at hmem

/-- C8 witness. -/
theorem claim_C8_effective_filters_witness :
    ((⟨"U1", "Alice", "NONE"⟩ : URRow).role ≠ "") ∧
    ((⟨"R1", "NAN"⟩ : RTRow).tcode ≠ "") :=
  ⟨claim_C8_effective_filters.1 [⟨some "U1", some "Alice", [some "none"]⟩]
      ⟨"U1", "Alice", "NONE"⟩ (by decide),
    claim_C8_effective_filters.2.1 [⟨some "r1", some "FB01, nan"⟩]
      ⟨"R1", "NAN"⟩ (by decide)⟩

theorem firstQual_some :
    ∀ {rps : List RPRow} {funcs : List String} {k : String × String} {p : RPRow},
      firstQual funcs k rps = some p →
        p ∈ rps ∧ rpQual funcs p ∧ conflictKey p = k := by
  intro rps
  induction rps with
  | nil => intro funcs k p h; simp [firstQual, List.find?] at h
  | cons q rest ih =>
    intro funcs k p h
    by_cases hq : qualB funcs k q = true
    · rw [firstQual, List.find?_cons_of_pos _ hq] at h
      cases Option.some.inj h
      exact ⟨List.mem_cons_self _ _, (of_decide_eq_true hq).1, (of_decide_eq_true hq).2⟩
    · have hq' : qualB funcs k q = false := by
        revert hq
        cases qualB funcs k q <;> simp
      rw [firstQual, find?_cons_false hq'] at h
      obtain ⟨h1, h2, h3⟩ := ih h
      exact ⟨List.mem_cons_of_mem _ h1, h2, h3⟩

/-- C1 counterexample: for a catalog row whose risk id is "" (as the loader
produces when the `access_risk_id` column is missing) the bulk path reports
the pair (F1,F2) for user U1 while the single-user path, which skips the row
as invalid, reports nothing — so the two pair sets differ. -/
theorem claim_C1_counterexample :
    (("F1", "F2") ∈ ((analyze_conflicts
      [⟨"U1", "N", "R1", "T1"⟩, ⟨"U1", "N", "R1", "T2"⟩]
      [⟨"F1", "T1"⟩, ⟨"F2", "T2"⟩]
      [⟨"", "F1", "F2", none, none⟩]).filter fun r => r.user_id == "U1").map
        fun r => sortPair r.function_1 r.function_2) ∧
    ("F1", "F2") ∉ (analyze_user_conflicts "U1"
      [⟨"U1", "N", "R1", "T1"⟩, ⟨"U1", "N", "R1", "T2"⟩]
      [⟨"F1", "T1"⟩, ⟨"F2", "T2"⟩]
      [⟨"", "F1", "F2", none, none⟩]).conflicts.map cKey := by decide

/-- C1 amended: for a stripped user id and a catalog whose rows all pass the
single-user validity filter and carry stripped function ids (as loader-built
rows with a present, non-blank `access_risk_id` do), the set of unordered
function pairs in the single-user report equals the set of pairs (ignoring
risk id) in the user's bulk conflict rows. -/
theorem claim_C1_single_bulk_agreement (utc : List UTRow) (fm : List FMRow)
    (rp : List RPRow) (u : String) (hu : pyStrip u = u)
    (hv : ∀ p ∈ rp, ¬ rpSkip p ∧ pyStrip p.function_1 = p.function_1 ∧
      pyStrip p.function_2 = p.function_2) :
    ∀ q : String × String,
      q ∈ (analyze_user_conflicts u utc fm rp).conflicts.map cKey ↔
        q ∈ ((analyze_conflicts utc fm rp).filter fun r => r.user_id == u).map
          fun r => sortPair r.function_1 r.function_2 := by
  intro q
  constructor
  · intro hq
    rcases List.mem_map.mp hq with ⟨c, hc, rfl⟩
    by_cases h : userRows (pyStrip u) utc = []
    · rw [analyze_user_conflicts_not_found h] at hc
      simp at hc
    · rw [analyze_user_conflicts_found h] at hc
      obtain ⟨_, p, hp, rfl⟩ := conflictLoop_spec _ _ rp [] c hc
      obtain ⟨hprp, hqual, _⟩ := firstQual_some hp
      obtain ⟨_, hv2, hv3⟩ := hv p hprp
      have hf1 : p.function_1 ∈ userFuncs (pyStrip u) utc fm := by
        rw [← hv2]; exact hqual.2.1
      have hf2 : p.function_2 ∈ userFuncs (pyStrip u) utc fm := by
        rw [← hv3]; exact hqual.2.2
      rcases mem_userFuncs.mp hf1 with ⟨a1, ha1, ha1u, b1, hb1, hb1t, hb1f⟩
      rcases mem_userFuncs.mp hf2 with ⟨a2, ha2, ha2u, b2, hb2, hb2t, hb2f⟩
      refine List.mem_map.mpr
        ⟨mkBulkRow ⟨a1.user_id, a1.user_name, a1.role, a1.tcode, b1.function_id⟩ p
          ⟨a2.user_id, a2.user_name, a2.role, a2.tcode, b2.function_id⟩, ?_, ?_⟩
      · refine List.mem_filter.mpr ⟨?_, ?_⟩
        · exact mem_analyze_conflicts.mpr
            ⟨_, mem_userFunctionsTable.mpr ⟨a1, ha1, b1, hb1, hb1t, rfl⟩, p, hprp,
              _, mem_userFunctionsTable.mpr ⟨a2, ha2, b2, hb2, hb2t, rfl⟩,
              hb1f.symm, hb2f, ha2u.trans ha1u.symm, rfl⟩
        · exact beq_iff_eq.mpr (by rw [ha1u, hu] : a1.user_id = u)
      · show sortPair p.function_1 p.function_2 = cKey (mkConflict _ p)
        rw [cKey_mkConflict]
        unfold conflictKey
        rw [hv2, hv3]
  · intro hq
    rcases List.mem_map.mp hq with ⟨r, hr, rfl⟩
    rcases List.mem_filter.mp hr with ⟨hrb, hru⟩
    rcases mem_analyze_conflicts.mp hrb with ⟨a, ha, p, hprp, b, hb, hpf, hbf, hbu, rfl⟩
    have hau : a.user_id = pyStrip u := by
      rw [hu]; exact beq_iff_eq.mp hru
    have hbu' : b.user_id = pyStrip u := by rw [hbu, hau]
    rcases mem_userFunctionsTable.mp ha with ⟨a1, ha1, b1, hb1, hb1t, rfl⟩
    rcases mem_userFunctionsTable.mp hb with ⟨a2, ha2, b2, hb2, hb2t, rfl⟩
    have hf1 : p.function_1 ∈ userFuncs (pyStrip u) utc fm :=
      mem_userFuncs.mpr ⟨a1, ha1, hau, b1, hb1, hb1t, hpf.symm⟩
    have hf2 : p.function_2 ∈ userFuncs (pyStrip u) utc fm :=
      mem_userFuncs.mpr ⟨a2, ha2, hbu', b2, hb2, hb2t, hbf⟩
    have hne : userRows (pyStrip u) utc ≠ [] := by
      intro hnil
      have hmem : a1 ∈ userRows (pyStrip u) utc :=
        List.mem_filter.mpr ⟨ha1, beq_iff_eq.mpr hau⟩
      rw [hnil] at hmem
      simp at hmem
    obtain ⟨hv1, hv2, hv3⟩ := hv p hprp
    have hqual : rpQual (userFuncs (pyStrip u) utc fm) p :=
      ⟨hv1, by rw [hv2]; exact hf1, by rw [hv3]; exact hf2⟩
    rw [analyze_user_conflicts_found hne]
    obtain ⟨c, hc, hck⟩ := conflictLoop_complete _ _ rp [] p hprp hqual (by simp)
    refine List.mem_map.mpr ⟨c, hc, ?_⟩
    rw [hck]
    show conflictKey p = sortPair p.function_1 p.function_2
    unfold conflictKey
    rw [hv2, hv3]

/-- C1 witness: the amended equivalence at concrete inputs. -/
theorem claim_C1_single_bulk_agreement_witness :
    ("F1", "F2") ∈ (analyze_user_conflicts "U1"
      [⟨"U1", "N", "R1", "T1"⟩, ⟨"U1", "N", "R1", "T2"⟩]
      [⟨"F1", "T1"⟩, ⟨"F2", "T2"⟩]
      [⟨"R2", "F1", "F2", none, none⟩]).conflicts.map cKey ↔
    ("F1", "F2") ∈ ((analyze_conflicts
      [⟨"U1", "N", "R1", "T1"⟩, ⟨"U1", "N", "R1", "T2"⟩]
      [⟨"F1", "T1"⟩, ⟨"F2", "T2"⟩]
      [⟨"R2", "F1", "F2", none, none⟩]).filter fun r => r.user_id == "U1").map
        fun r => sortPair r.function_1 r.function_2 :=
  claim_C1_single_bulk_agreement
    [⟨"U1", "N", "R1", "T1"⟩, ⟨"U1", "N", "R1", "T2"⟩]
    [⟨"F1", "T1"⟩, ⟨"F2", "T2"⟩]
    [⟨"R2", "F1", "F2", none, none⟩] "U1" (by decide) (by decide) ("F1", "F2")

end SoD
